import Mathlib

/-!
Verification of the pwm password-vault core against its specification.

The C sources are shallowly embedded: C byte buffers become `List Nat`
(each element a byte value), fallible calls return `Option`, and the
external primitives (Argon2 key derivation, ChaCha20-Poly1305) are
abstracted as function parameters, since the claims under verification
concern the surrounding logic and layouts, not the primitives themselves.
-/

set_option maxRecDepth 8192

namespace Pwm

/-! Size constants from src/crypto.h. -/

def KEY_SIZE : Nat := 32

def TAG_SIZE : Nat := 16

def SALT_SIZE : Nat := 32

def NONCE_SIZE : Nat := 12

/-! Size constants from src/pwm.c. -/

def MAX_ITEM_NAME_SIZE : Nat := 100

def MAX_USERNAME_SIZE : Nat := 100

def MAX_OTHER_INFO_SIZE : Nat := 300

def FILENAME_SIZE : Nat := 65

/-- Modelled from the spec: the header `password.h` is not present in the
source tree (only its users are), so the policy constants it defines are
taken from spec section 4.7: MIN_PASSWORD_LEN = 8. -/
def MIN_PASSWORD_LEN : Nat := 8

/-- Modelled from the spec: MAX_PASSWORD_LEN = 64 (spec section 4.7). -/
def MAX_PASSWORD_LEN : Nat := 64

/-- Modelled from the spec: MAX_PASSWORD_SIZE = MAX_PASSWORD_LEN + 1
(spec section 4.7). -/
def MAX_PASSWORD_SIZE : Nat := MAX_PASSWORD_LEN + 1

/-- Modelled from the spec: the config record serializes to exactly 4 bytes
(spec section 3), so CONFIG_DATA_SIZE = 4. -/
def CONFIG_DATA_SIZE : Nat := 4

/-- ITEM_SIZE from src/pwm.c line 132: the item plaintext and ciphertext
size is the sum of the four field sizes. -/
def ITEM_SIZE : Nat :=
  MAX_ITEM_NAME_SIZE + MAX_USERNAME_SIZE + MAX_PASSWORD_SIZE + MAX_OTHER_INFO_SIZE

/-- The fixed nonce from src/pwm.c line 161. -/
def FixedNonce : List Nat :=
  [0x81, 0x88, 0x77, 0x9a, 0xe0, 0x81, 0xc6, 0x9b, 0x4f, 0x11, 0x15, 0x5a]

/-- The bytes of the label string "data" (DATA_ENC_KEYS, src/pwm.c line 151). -/
def DATA_ENC_KEYS : List Nat := [100, 97, 116, 97]

/-- The bytes of the label string "names" (NAME_ENC_KEYS, src/pwm.c line 152). -/
def NAME_ENC_KEYS : List Nat := [110, 97, 109, 101, 115]

/-- The bytes of the label string "files" (FILE_LABEL, src/pwm.c line 153). -/
def FILE_LABEL : List Nat := [102, 105, 108, 101, 115]

/-! Hex encoding, from src/hex.c. -/

/-- One lowercase hex digit character code for a value below 16
(the "%.2x" conversion used by BinToHexStr). -/
def hexDigit (n : Nat) : Nat :=
  if n < 10 then 48 + n else 87 + n

/-- The two lowercase hex character codes of one byte. -/
def hexByte (b : Nat) : List Nat :=
  [hexDigit (b / 16 % 16), hexDigit (b % 16)]

/-- The loop of BinToHexStr (src/hex.c lines 26-35): writes two hex chars
per input byte at positions i, i+1 while i + 2 < bufSize and input
remains; returns the characters written and the count of bytes converted. -/
def binToHexLoop : List Nat → Nat → Nat → List Nat × Nat
  | [], _, _ => ([], 0)
  | b :: rest, bufSize, i =>
    if i + 2 < bufSize then
      let r := binToHexLoop rest bufSize (i + 2)
      (hexByte b ++ r.1, r.2 + 1)
    else
      ([], 0)

/-- BinToHexStr (src/hex.c): converts bytes to a lowercase hex string into a
buffer of bufSize chars; returns (string contents, number converted). -/
def binToHexStr (bin : List Nat) (bufSize : Nat) : List Nat × Nat :=
  binToHexLoop bin bufSize 0

/-- Type of the abstracted Argon2 derivation DeriveKey (src/crypto.c):
secret bytes, salt, label, output length to output bytes. -/
def Kdf : Type := List Nat → List Nat → List Nat → Nat → List Nat

/-- DeriveName (src/crypto.c lines 179-208): derives maxNameSize/2 - 1
binary bytes with DeriveKey and hex-encodes them; fails unless
BinToHexStr converted exactly that many bytes. -/
def deriveName (kdf : Kdf) (secret salt label : List Nat) (maxNameSize : Nat) :
    Option (List Nat) :=
  let binNameSize := maxNameSize / 2 - 1
  let bin := kdf secret salt label binNameSize
  let r := binToHexStr bin maxNameSize
  if r.2 = binNameSize then some r.1 else none

/-- A key derivation stand-in that returns all-zero bytes, for evaluating
the embedding on closed inputs. -/
def zeroKdf : Kdf := fun _ _ _ n => List.replicate n 0

/-! Facts about the hex loop. -/

theorem binToHexLoop_complete (bufSize : Nat) :
    ∀ (bin : List Nat) (i : Nat), i + 2 * bin.length < bufSize →
    binToHexLoop bin bufSize i = (bin.flatMap hexByte, bin.length) := by
  intro bin
  induction bin with
  | nil => intro i _; simp [binToHexLoop]
  | cons b rest ih =>
    intro i h
    have hlt : i + 2 < bufSize := by
      simp only [List.length_cons] at h
      omega
    have hrest : (i + 2) + 2 * rest.length < bufSize := by
      simp only [List.length_cons] at h
      omega
    simp [binToHexLoop, hlt, ih (i + 2) hrest, List.flatMap_cons]

theorem hexByte_length (b : Nat) : (hexByte b).length = 2 := by
  simp [hexByte]

theorem flatMap_hexByte_length (bin : List Nat) :
    (bin.flatMap hexByte).length = 2 * bin.length := by
  induction bin with
  | nil => simp
  | cons b rest ih =>
    simp [List.flatMap_cons, ih, hexByte]
    omega

/-- Amended C3: for any maxNameSize of at least 2, deriveName derives
maxNameSize/2 - 1 binary bytes and hex-encodes them into a string of
2 * binLen lowercase hex characters; for the standard filename size 65
this yields 62 characters from 31 bytes (not 64 from 32). -/
theorem deriveName_length (kdf : Kdf) (secret salt label : List Nat)
    (maxNameSize : Nat) (h2 : 2 ≤ maxNameSize)
    (hk : (kdf secret salt label (maxNameSize / 2 - 1)).length
            = maxNameSize / 2 - 1) :
    deriveName kdf secret salt label maxNameSize
      = some ((kdf secret salt label (maxNameSize / 2 - 1)).flatMap hexByte)
    ∧ ((kdf secret salt label (maxNameSize / 2 - 1)).flatMap hexByte).length
        = 2 * (maxNameSize / 2 - 1) := by
  have hbound : 0 + 2 * (kdf secret salt label (maxNameSize / 2 - 1)).length
      < maxNameSize := by
    rw [hk]
    have : maxNameSize / 2 * 2 ≤ maxNameSize := Nat.div_mul_le_self _ _
    omega
  constructor
  · show (let binNameSize := maxNameSize / 2 - 1;
      let bin := kdf secret salt label binNameSize;
      let r := binToHexStr bin maxNameSize;
      if r.2 = binNameSize then some r.1 else none) = _
    simp only [binToHexStr, binToHexLoop_complete maxNameSize _ 0 hbound, hk]
    simp
  · rw [flatMap_hexByte_length, hk]

/-- Counterexample to C3 as stated: with the standard filename size 65 the
derived binary preimage is 31 bytes (65/2 - 1 = 31, not 32) and the derived
name is 62 hex characters, not 64. -/
theorem deriveName_65_is_62_chars :
    FILENAME_SIZE / 2 - 1 = 31
    ∧ (deriveName zeroKdf [] [] [] FILENAME_SIZE).map List.length = some 62
    ∧ ¬ (62 = 64) := by
  refine ⟨rfl, ?_, by decide⟩
  decide

/-- Witness for deriveName_length: the amended C3 theorem applied at the standard
filename size 65 with the all-zero key derivation stand-in. -/
theorem deriveName_length_witness :
    deriveName zeroKdf [] [] [] 65
      = some ((zeroKdf [] [] [] (65 / 2 - 1)).flatMap hexByte)
    ∧ ((zeroKdf [] [] [] (65 / 2 - 1)).flatMap hexByte).length
        = 2 * (65 / 2 - 1) :=
  deriveName_length zeroKdf [] [] [] 65 (by decide) (by decide)

/-! Item files, from src/pwm.c. -/

/-- WriteItemFile (src/pwm.c lines 707-724): the item file is the
concatenation nameNonce | nameTag | nameCT | dataSalt | dataTag | dataCT. -/
def writeItemFile (nameNonce nameTag nameCt salt tag itemCt : List Nat) :
    List Nat :=
  nameNonce ++ nameTag ++ nameCt ++ salt ++ tag ++ itemCt

/-- Amended C2: every item file written by WriteItemFile is exactly 741
bytes, laid out as nameNonce(12) | nameTag(16) | nameCT(100) |
dataSalt(32) | dataTag(16) | dataCT(565): the data ciphertext is
ITEM_SIZE = 565 bytes, not 600, and the total is 741, not 776. -/
theorem writeItemFile_layout (nameNonce nameTag nameCt salt tag itemCt : List Nat)
    (hn : nameNonce.length = NONCE_SIZE) (ht : nameTag.length = TAG_SIZE)
    (hc : nameCt.length = MAX_ITEM_NAME_SIZE) (hs : salt.length = SALT_SIZE)
    (hg : tag.length = TAG_SIZE) (hi : itemCt.length = ITEM_SIZE) :
    (writeItemFile nameNonce nameTag nameCt salt tag itemCt).length = 741
    ∧ (writeItemFile nameNonce nameTag nameCt salt tag itemCt).take 12 = nameNonce
    ∧ ((writeItemFile nameNonce nameTag nameCt salt tag itemCt).drop 12).take 16
        = nameTag
    ∧ ((writeItemFile nameNonce nameTag nameCt salt tag itemCt).drop 28).take 100
        = nameCt
    ∧ ((writeItemFile nameNonce nameTag nameCt salt tag itemCt).drop 128).take 32
        = salt
    ∧ ((writeItemFile nameNonce nameTag nameCt salt tag itemCt).drop 160).take 16
        = tag
    ∧ (writeItemFile nameNonce nameTag nameCt salt tag itemCt).drop 176 = itemCt
    ∧ itemCt.length = 565 := by
  simp only [NONCE_SIZE, TAG_SIZE, MAX_ITEM_NAME_SIZE, SALT_SIZE, ITEM_SIZE,
    MAX_USERNAME_SIZE, MAX_PASSWORD_SIZE, MAX_PASSWORD_LEN,
    MAX_OTHER_INFO_SIZE] at hn ht hc hs hg hi
  have h1 : writeItemFile nameNonce nameTag nameCt salt tag itemCt
      = nameNonce ++ (nameTag ++ (nameCt ++ (salt ++ (tag ++ itemCt)))) := by
    simp [writeItemFile, List.append_assoc]
  have h2 : writeItemFile nameNonce nameTag nameCt salt tag itemCt
      = (nameNonce ++ nameTag) ++ (nameCt ++ (salt ++ (tag ++ itemCt))) := by
    simp [writeItemFile, List.append_assoc]
  have h3 : writeItemFile nameNonce nameTag nameCt salt tag itemCt
      = (nameNonce ++ nameTag ++ nameCt) ++ (salt ++ (tag ++ itemCt)) := by
    simp [writeItemFile, List.append_assoc]
  have h4 : writeItemFile nameNonce nameTag nameCt salt tag itemCt
      = (nameNonce ++ nameTag ++ nameCt ++ salt) ++ (tag ++ itemCt) := by
    simp [writeItemFile, List.append_assoc]
  have h5 : writeItemFile nameNonce nameTag nameCt salt tag itemCt
      = (nameNonce ++ nameTag ++ nameCt ++ salt ++ tag) ++ itemCt := by
    simp [writeItemFile, List.append_assoc]
  refine ⟨?_, ?_, ?_, ?_, ?_, ?_, ?_, hi⟩
  · simp [writeItemFile, hn, ht, hc, hs, hg, hi]
  · rw [h1]; exact List.take_left' hn
  · rw [h1, List.drop_left' hn]; exact List.take_left' ht
  · rw [h2, List.drop_left' (by simp [hn, ht])]; exact List.take_left' hc
  · rw [h3, List.drop_left' (by simp [hn, ht, hc])]; exact List.take_left' hs
  · rw [h4, List.drop_left' (by simp [hn, ht, hc, hs])]; exact List.take_left' hg
  · rw [h5]; exact List.drop_left' (by simp [hn, ht, hc, hs, hg])

/-- Witness for writeItemFile_layout at concrete all-zero fields. -/
theorem writeItemFile_layout_witness :
    (writeItemFile (List.replicate 12 0) (List.replicate 16 0)
        (List.replicate 100 0) (List.replicate 32 0) (List.replicate 16 0)
        (List.replicate 565 0)).length = 741
    ∧ (writeItemFile (List.replicate 12 0) (List.replicate 16 0)
        (List.replicate 100 0) (List.replicate 32 0) (List.replicate 16 0)
        (List.replicate 565 0)).take 12 = List.replicate 12 0
    ∧ ((writeItemFile (List.replicate 12 0) (List.replicate 16 0)
        (List.replicate 100 0) (List.replicate 32 0) (List.replicate 16 0)
        (List.replicate 565 0)).drop 12).take 16 = List.replicate 16 0
    ∧ ((writeItemFile (List.replicate 12 0) (List.replicate 16 0)
        (List.replicate 100 0) (List.replicate 32 0) (List.replicate 16 0)
        (List.replicate 565 0)).drop 28).take 100 = List.replicate 100 0
    ∧ ((writeItemFile (List.replicate 12 0) (List.replicate 16 0)
        (List.replicate 100 0) (List.replicate 32 0) (List.replicate 16 0)
        (List.replicate 565 0)).drop 128).take 32 = List.replicate 32 0
    ∧ ((writeItemFile (List.replicate 12 0) (List.replicate 16 0)
        (List.replicate 100 0) (List.replicate 32 0) (List.replicate 16 0)
        (List.replicate 565 0)).drop 160).take 16 = List.replicate 16 0
    ∧ (writeItemFile (List.replicate 12 0) (List.replicate 16 0)
        (List.replicate 100 0) (List.replicate 32 0) (List.replicate 16 0)
        (List.replicate 565 0)).drop 176 = List.replicate 565 0
    ∧ (List.replicate (565:Nat) (0:Nat)).length = 565 :=
  writeItemFile_layout _ _ _ _ _ _ (by simp [NONCE_SIZE]) (by simp [TAG_SIZE])
    (by simp [MAX_ITEM_NAME_SIZE]) (by simp [SALT_SIZE]) (by simp [TAG_SIZE])
    (by simp [ITEM_SIZE, MAX_ITEM_NAME_SIZE, MAX_USERNAME_SIZE,
      MAX_PASSWORD_SIZE, MAX_PASSWORD_LEN, MAX_OTHER_INFO_SIZE])

/-- Counterexample to C2 as stated: the data-ciphertext field is
ITEM_SIZE = 565 bytes and a written item file is 741 bytes, not 776. -/
theorem writeItemFile_size_not_776 :
    ITEM_SIZE = 565
    ∧ (writeItemFile (List.replicate 12 0) (List.replicate 16 0)
        (List.replicate 100 0) (List.replicate 32 0) (List.replicate 16 0)
        (List.replicate ITEM_SIZE 0)).length = 741
    ∧ ¬ ((741:Nat) = 776) ∧ ¬ (ITEM_SIZE = 600) := by
  refine ⟨by decide, ?_, by decide, by decide⟩
  simp [writeItemFile, ITEM_SIZE, MAX_ITEM_NAME_SIZE, MAX_USERNAME_SIZE,
    MAX_PASSWORD_SIZE, MAX_PASSWORD_LEN, MAX_OTHER_INFO_SIZE]

/-! Constant-time compare, from src/mem.c. -/

/-- IsEqual (src/mem.c lines 126-146): XOR each byte pair, OR the
differences into one accumulator, and compare the accumulator with zero.
The fold has no early exit: every byte pair is visited. -/
def isEqual (a b : List Nat) : Bool :=
  ((List.zipWith (fun x y => x ^^^ y) a b).foldl (fun acc d => acc ||| d) 0) == 0

theorem natOr_eq_zero (x y : Nat) : x ||| y = 0 ↔ x = 0 ∧ y = 0 := by
  constructor
  · intro h
    have hb : ∀ i, x.testBit i = false ∧ y.testBit i = false := by
      intro i
      have := congrArg (fun n => n.testBit i) h
      simp only [Nat.testBit_or, Nat.zero_testBit, Bool.or_eq_false_iff] at this
      exact this
    constructor
    · exact Nat.eq_of_testBit_eq fun i => by simp [(hb i).1]
    · exact Nat.eq_of_testBit_eq fun i => by simp [(hb i).2]
  · rintro ⟨rfl, rfl⟩
    rfl

theorem foldl_or_eq_zero (l : List Nat) :
    ∀ acc, (l.foldl (fun a d => a ||| d) acc = 0) ↔ (acc = 0 ∧ ∀ x ∈ l, x = 0) := by
  induction l with
  | nil => intro acc; simp
  | cons x l ih =>
    intro acc
    simp only [List.foldl_cons, ih (acc ||| x), natOr_eq_zero, List.mem_cons]
    constructor
    · rintro ⟨⟨ha, hx⟩, hl⟩
      exact ⟨ha, fun y hy => by rcases hy with rfl | hy; exact hx; exact hl y hy⟩
    · rintro ⟨ha, hl⟩
      exact ⟨⟨ha, hl x (Or.inl rfl)⟩, fun y hy => hl y (Or.inr hy)⟩

theorem zipWith_xor_self_mem (a : List Nat) :
    ∀ x ∈ List.zipWith (fun u v => u ^^^ v) a a, x = 0 := by
  induction a with
  | nil => intro x hx; simp at hx
  | cons y t ih =>
    intro x hx
    simp only [List.zipWith_cons_cons, List.mem_cons] at hx
    rcases hx with rfl | hx
    · simp
    · exact ih x hx

/-- C9: for buffers of the same length n, the constant-time compare returns
true if and only if the buffers agree in every one of the n bytes. -/
theorem isEqual_iff_eq (a b : List Nat) (h : a.length = b.length) :
    isEqual a b = true ↔ a = b := by
  unfold isEqual
  rw [beq_iff_eq, foldl_or_eq_zero]
  simp only [true_and]
  constructor
  · intro hz
    apply List.ext_getElem h
    intro i hia hib
    have hmem : a[i] ^^^ b[i] ∈ List.zipWith (fun x y => x ^^^ y) a b := by
      have hlt : i < (List.zipWith (fun x y => x ^^^ y) a b).length := by
        simp [List.length_zipWith, h] at hib ⊢
        omega
      have : (List.zipWith (fun x y => x ^^^ y) a b)[i] = a[i] ^^^ b[i] := by
        simp
      rw [← this]
      exact List.getElem_mem hlt
    exact Nat.xor_eq_zero.mp (hz _ hmem)
  · rintro rfl
    exact fun x hx => zipWith_xor_self_mem a x hx

/-- Witness for isEqual_iff_eq at a concrete pair of equal-length buffers. -/
theorem isEqual_iff_eq_witness :
    ([5, 7, 200] : List Nat).length = ([5, 7, 201] : List Nat).length
    ∧ (isEqual [5, 7, 200] [5, 7, 201] = true ↔ ([5, 7, 200] : List Nat) = [5, 7, 201]) :=
  ⟨by decide, isEqual_iff_eq [5, 7, 200] [5, 7, 201] (by decide)⟩

/-! Item-name validation and encryption, from src/pwm.c and src/utils.c. -/

/-- The standard-locale isprint test used by IsPrintable (src/utils.c):
a byte is printable when it lies in the closed range 0x20 .. 0x7e. -/
def isprint (b : Nat) : Bool :=
  decide (32 ≤ b) && decide (b ≤ 126)

/-- IsPrintable (src/utils.c): every byte of the string is printable. -/
def isPrintable (s : List Nat) : Bool :=
  s.all isprint

/-- IsItemNameValid (src/pwm.c lines 623-641): printable, nonempty, and at
most MAX_ITEM_NAME_SIZE characters. -/
def isItemNameValid (name : List Nat) : Bool :=
  isPrintable name && decide (0 < name.length)
    && decide (name.length ≤ MAX_ITEM_NAME_SIZE)

/-- Type of the abstracted AEAD encryption Encrypt (src/crypto.c):
key, nonce, plaintext to (ciphertext, tag). -/
def Enc : Type := List Nat → List Nat → List Nat → List Nat × List Nat

/-- EncryptName (src/pwm.c lines 591-611): zero the 100-byte buffer, copy
the name in with snprintf, abort with an internal error when the name
length is at least MAX_ITEM_NAME_SIZE, and encrypt the padded buffer. -/
def encryptName (enc : Enc) (key nonce itemName : List Nat) :
    Option (List Nat × List Nat) :=
  if MAX_ITEM_NAME_SIZE ≤ itemName.length then
    none
  else
    some (enc key nonce
      (itemName ++ List.replicate (MAX_ITEM_NAME_SIZE - itemName.length) 0))

/-- Amended C5: for every printable item name of 1 to 99 characters the
validation accepts and name encryption succeeds on the name zero-padded to
exactly 100 bytes; a name of exactly 100 characters passes validation but
the encryption step aborts with an internal error, so 99 is the largest
length that create can store. -/
theorem itemName_valid_encrypts (enc : Enc) (key nonce name : List Nat)
    (hp : isPrintable name = true) (h1 : 1 ≤ name.length)
    (h99 : name.length ≤ 99) :
    isItemNameValid name = true
    ∧ encryptName enc key nonce name
        = some (enc key nonce (name ++ List.replicate (100 - name.length) 0))
    ∧ (name ++ List.replicate (100 - name.length) 0).length = 100 := by
  refine ⟨?_, ?_, ?_⟩
  · simp [isItemNameValid, hp, MAX_ITEM_NAME_SIZE]
    omega
  · simp only [encryptName, MAX_ITEM_NAME_SIZE]
    rw [if_neg (by omega)]
  · simp
    omega

/-- Witness for itemName_valid_encrypts at the one-character name "a". -/
theorem itemName_valid_encrypts_witness :
    isItemNameValid [97] = true
    ∧ encryptName (fun _ _ pt => (pt, [])) [] [] [97]
        = some ((fun _ _ pt => (pt, [])) ([] : List Nat) ([] : List Nat)
            ([97] ++ List.replicate (100 - ([97] : List Nat).length) 0))
    ∧ (([97] : List Nat) ++ List.replicate (100 - ([97] : List Nat).length) 0).length = 100 :=
  itemName_valid_encrypts (fun _ _ pt => (pt, [])) [] [] [97]
    (by decide) (by decide) (by decide)

/-- Counterexample to C5 as stated: a printable name of exactly 100
characters is accepted by the validation, but the name-encryption step
aborts (returns the internal-error outcome) instead of succeeding. -/
theorem itemName_100_accepted_but_encrypt_aborts :
    isItemNameValid (List.replicate 100 97) = true
    ∧ encryptName (fun _ _ pt => (pt, [])) [] [] (List.replicate 100 97) = none := by
  constructor
  · decide
  · simp [encryptName, MAX_ITEM_NAME_SIZE]

/-! Password generator, from src/password.c. -/

/-- The digit pool (src/password.c line 32). -/
def Nums : List Nat := [48, 49, 50, 51, 52, 53, 54, 55, 56, 57]

/-- The letter pool (src/password.c lines 33-37), transcribed byte for
byte: the source writes the character w (119) and W (87) at the positions
where e (101) and E (69) would be expected, so both appear twice. -/
def Letters : List Nat :=
  [97, 98, 99, 100, 119, 102, 103, 104, 105, 106, 107, 108, 109, 110, 111,
   112, 113, 114, 115, 116, 117, 118, 119, 120, 121, 122,
   65, 66, 67, 68, 87, 70, 71, 72, 73, 74, 75, 76, 77, 78, 79, 80, 81, 82,
   83, 84, 85, 86, 87, 88, 89, 90]

/-- The special-character pool (src/password.c lines 38-40). -/
def Specials : List Nat :=
  [33, 64, 35, 36, 37, 94, 38, 42, 40, 41, 45, 95, 61, 43, 91, 123, 125,
   93, 92, 124, 59, 58, 39, 34, 44, 60, 46, 62, 47, 63]

/-- The generator state set up by LoadPwdGenCfg: the configuration flags,
the active symbol array, its size, and the maximum accepted random byte.
maxSymIndex is none when computing it would divide by zero. -/
structure GenState where
  useNums : Bool
  useLetters : Bool
  useSpecialChars : Bool
  passwordLen : Nat
  symbols : List Nat
  symCount : Nat
  maxSymIndex : Option Nat
deriving DecidableEq

/-- LoadPwdGenCfg (src/password.c lines 52-87): deserialize the 4 config
bytes, build the symbol array by concatenating the enabled pools in the
order numbers, letters, specials, and compute
MaxSymIndex = 256 / SymCount * SymCount - 1 (a uint8_t; the division
faults when SymCount is zero, modelled as none). -/
def loadPwdGenCfg (cfg : List Nat) : GenState :=
  let useNums : Bool := decide (cfg.getD 0 0 ≠ 0)
  let useLetters : Bool := decide (cfg.getD 1 0 ≠ 0)
  let useSpecialChars : Bool := decide (cfg.getD 2 0 ≠ 0)
  let symbols :=
    (if useNums then Nums else []) ++ (if useLetters then Letters else [])
      ++ (if useSpecialChars then Specials else [])
  let symCount := symbols.length
  { useNums := useNums
    useLetters := useLetters
    useSpecialChars := useSpecialChars
    passwordLen := cfg.getD 3 0 % 256
    symbols := symbols
    symCount := symCount
    maxSymIndex :=
      if symCount = 0 then none
      else some ((256 / symCount * symCount - 1) % 256) }

/-- GetSerializedPwdGenCfgData (src/password.c lines 95-105): the three
flags as 0/1 bytes followed by the password length byte. -/
def serializePwdGenCfg (useNums useLetters useSpecialChars : Bool)
    (len : Nat) : List Nat :=
  [if useNums then 1 else 0, if useLetters then 1 else 0,
   if useSpecialChars then 1 else 0, len]

/-- The accept/reject loop of GeneratePassword (src/password.c lines
201-222): consume random bytes in order, reject any byte above maxIdx,
map an accepted byte r to symbols[r mod symCount], and stop after n
accepted bytes.  Returns none when the supplied randomness runs out
(the C code would block drawing more). -/
def genChars (symbols : List Nat) (symCount maxIdx : Nat) :
    List Nat → Nat → Option (List Nat)
  | _, 0 => some []
  | [], _ + 1 => none
  | r :: rest, n + 1 =>
    if r ≤ maxIdx then
      (genChars symbols symCount maxIdx rest n).map
        (fun tl => symbols.getD (r % symCount) 0 :: tl)
    else
      genChars symbols symCount maxIdx rest (n + 1)

/-- GeneratePassword (src/password.c lines 189-225): clamp the configured
length to bufSize - 1 and run the rejection-sampling loop; the result is
NUL-terminated in the C buffer, modelled as the list of the password
characters.  A state whose maxSymIndex faulted produces no password. -/
def generatePassword (st : GenState) (bufSize : Nat) (rand : List Nat) :
    Option (List Nat) :=
  match st.maxSymIndex with
  | none => none
  | some maxIdx =>
    genChars st.symbols st.symCount maxIdx rand (min st.passwordLen (bufSize - 1))

theorem genChars_spec (symbols : List Nat) (symCount maxIdx : Nat) :
    ∀ (rand : List Nat) (n : Nat),
    n ≤ (rand.filter (fun r => decide (r ≤ maxIdx))).length →
    genChars symbols symCount maxIdx rand n
      = some (((rand.filter (fun r => decide (r ≤ maxIdx))).take n).map
          (fun r => symbols.getD (r % symCount) 0)) := by
  intro rand
  induction rand with
  | nil =>
    intro n h
    simp only [List.filter_nil, List.length_nil, Nat.le_zero] at h
    subst h
    simp [genChars]
  | cons r rest ih =>
    intro n h
    cases n with
    | zero => simp [genChars]
    | succ m =>
      by_cases hr : r ≤ maxIdx
      · have hm : m ≤ (rest.filter (fun r => decide (r ≤ maxIdx))).length := by
          simp [List.filter_cons, hr] at h
          omega
        have hstep : genChars symbols symCount maxIdx (r :: rest) (m + 1)
            = (genChars symbols symCount maxIdx rest m).map
                (fun tl => symbols.getD (r % symCount) 0 :: tl) := by
          simp [genChars, hr]
        rw [hstep, ih m hm]
        simp [List.filter_cons, hr]
      · have hm : m + 1 ≤ (rest.filter (fun r => decide (r ≤ maxIdx))).length := by
          simpa [List.filter_cons, hr] using h
        have hstep : genChars symbols symCount maxIdx (r :: rest) (m + 1)
            = genChars symbols symCount maxIdx rest (m + 1) := by
          simp [genChars, hr]
        rw [hstep, ih (m + 1) hm]
        simp [List.filter_cons, hr]

theorem symbols_subset_pools (cfg : List Nat) :
    ∀ c ∈ (loadPwdGenCfg cfg).symbols, c ∈ Nums ++ Letters ++ Specials := by
  intro c hc
  have hif : ∀ (b : Bool) (l : List Nat), c ∈ (if b then l else []) → c ∈ l := by
    intro b l h
    cases b
    · simp at h
    · simpa using h
  simp only [loadPwdGenCfg] at hc
  rcases List.mem_append.mp hc with hc1 | hc2
  · rcases List.mem_append.mp hc1 with hn | hl
    · exact List.mem_append.mpr (Or.inl (List.mem_append.mpr (Or.inl (hif _ _ hn))))
    · exact List.mem_append.mpr (Or.inl (List.mem_append.mpr (Or.inr (hif _ _ hl))))
  · exact List.mem_append.mpr (Or.inr (hif _ _ hc2))

theorem pools_printable : ∀ c ∈ Nums ++ Letters ++ Specials, isprint c = true := by
  decide

/-- C7: with at least one pool enabled and a policy-legal length, the
generator state concatenates the enabled pools in the order numbers,
letters, specials; the acceptance threshold is 256 / |P| * |P| - 1;
given enough randomness the generator maps each accepted byte r to
symbols[r mod |P|], rejecting every byte above the threshold, and yields a
password of exactly passwordLen characters, all printable. -/
theorem generatePassword_correct (cfg rand : List Nat)
    (hpool : 0 < (loadPwdGenCfg cfg).symCount)
    (hlen : (loadPwdGenCfg cfg).passwordLen ≤ MAX_PASSWORD_LEN)
    (hrand : (loadPwdGenCfg cfg).passwordLen
      ≤ (rand.filter (fun r => decide (r ≤ 256 / (loadPwdGenCfg cfg).symCount
            * (loadPwdGenCfg cfg).symCount - 1))).length) :
    (loadPwdGenCfg cfg).symbols
      = (if cfg.getD 0 0 ≠ 0 then Nums else [])
          ++ (if cfg.getD 1 0 ≠ 0 then Letters else [])
          ++ (if cfg.getD 2 0 ≠ 0 then Specials else [])
    ∧ (loadPwdGenCfg cfg).maxSymIndex
        = some (256 / (loadPwdGenCfg cfg).symCount
            * (loadPwdGenCfg cfg).symCount - 1)
    ∧ generatePassword (loadPwdGenCfg cfg) MAX_PASSWORD_SIZE rand
        = some (((rand.filter (fun r => decide (r ≤ 256 / (loadPwdGenCfg cfg).symCount
              * (loadPwdGenCfg cfg).symCount - 1))).take (loadPwdGenCfg cfg).passwordLen).map
            (fun r => (loadPwdGenCfg cfg).symbols.getD (r % (loadPwdGenCfg cfg).symCount) 0))
    ∧ (((rand.filter (fun r => decide (r ≤ 256 / (loadPwdGenCfg cfg).symCount
          * (loadPwdGenCfg cfg).symCount - 1))).take (loadPwdGenCfg cfg).passwordLen).map
        (fun r => (loadPwdGenCfg cfg).symbols.getD (r % (loadPwdGenCfg cfg).symCount) 0)).length
        = (loadPwdGenCfg cfg).passwordLen
    ∧ ∀ c ∈ (((rand.filter (fun r => decide (r ≤ 256 / (loadPwdGenCfg cfg).symCount
          * (loadPwdGenCfg cfg).symCount - 1))).take (loadPwdGenCfg cfg).passwordLen).map
        (fun r => (loadPwdGenCfg cfg).symbols.getD (r % (loadPwdGenCfg cfg).symCount) 0)),
        isprint c = true := by
  have hsc : (loadPwdGenCfg cfg).symCount ≠ 0 := Nat.pos_iff_ne_zero.mp hpool
  have hsclen : (loadPwdGenCfg cfg).symCount = (loadPwdGenCfg cfg).symbols.length := rfl
  have hmax : (loadPwdGenCfg cfg).maxSymIndex
      = some (256 / (loadPwdGenCfg cfg).symCount * (loadPwdGenCfg cfg).symCount - 1) := by
    have hle : 256 / (loadPwdGenCfg cfg).symCount * (loadPwdGenCfg cfg).symCount ≤ 256 :=
      Nat.div_mul_le_self 256 _
    have hlt : 256 / (loadPwdGenCfg cfg).symCount * (loadPwdGenCfg cfg).symCount - 1 < 256 := by
      omega
    show (if (loadPwdGenCfg cfg).symCount = 0 then none
      else some ((256 / (loadPwdGenCfg cfg).symCount * (loadPwdGenCfg cfg).symCount - 1) % 256)) = _
    rw [if_neg hsc, Nat.mod_eq_of_lt hlt]
  refine ⟨?_, hmax, ?_, ?_, ?_⟩
  · simp [loadPwdGenCfg]
  · show generatePassword _ _ _ = _
    unfold generatePassword
    rw [hmax]
    have hmin : min (loadPwdGenCfg cfg).passwordLen (MAX_PASSWORD_SIZE - 1)
        = (loadPwdGenCfg cfg).passwordLen := by
      simp only [MAX_PASSWORD_SIZE, MAX_PASSWORD_LEN] at hlen ⊢
      omega
    rw [hmin]
    exact genChars_spec _ _ _ rand _ hrand
  · rw [List.length_map, List.length_take]
    omega
  · intro c hc
    rw [List.mem_map] at hc
    obtain ⟨r, _, rfl⟩ := hc
    have hidx : r % (loadPwdGenCfg cfg).symCount < (loadPwdGenCfg cfg).symbols.length := by
      rw [← hsclen]
      exact Nat.mod_lt _ hpool
    have hmem : (loadPwdGenCfg cfg).symbols.getD (r % (loadPwdGenCfg cfg).symCount) 0
        ∈ (loadPwdGenCfg cfg).symbols := by
      rw [List.getD_eq_getElem _ _ hidx]
      exact List.getElem_mem hidx
    exact pools_printable _ (symbols_subset_pools cfg _ hmem)

/-- Witness for generatePassword_correct: all three pools enabled, length
8, eight random bytes that are all accepted. -/
theorem generatePassword_correct_witness :
    (loadPwdGenCfg [1, 1, 1, 8]).symbols
      = (if ([1, 1, 1, 8] : List Nat).getD 0 0 ≠ 0 then Nums else [])
          ++ (if ([1, 1, 1, 8] : List Nat).getD 1 0 ≠ 0 then Letters else [])
          ++ (if ([1, 1, 1, 8] : List Nat).getD 2 0 ≠ 0 then Specials else [])
    ∧ (loadPwdGenCfg [1, 1, 1, 8]).maxSymIndex
        = some (256 / (loadPwdGenCfg [1, 1, 1, 8]).symCount
            * (loadPwdGenCfg [1, 1, 1, 8]).symCount - 1)
    ∧ generatePassword (loadPwdGenCfg [1, 1, 1, 8]) MAX_PASSWORD_SIZE
          [0, 1, 2, 3, 4, 5, 6, 7]
        = some (((([0, 1, 2, 3, 4, 5, 6, 7] : List Nat).filter
              (fun r => decide (r ≤ 256 / (loadPwdGenCfg [1, 1, 1, 8]).symCount
                * (loadPwdGenCfg [1, 1, 1, 8]).symCount - 1))).take
              (loadPwdGenCfg [1, 1, 1, 8]).passwordLen).map
            (fun r => (loadPwdGenCfg [1, 1, 1, 8]).symbols.getD
              (r % (loadPwdGenCfg [1, 1, 1, 8]).symCount) 0))
    ∧ (((([0, 1, 2, 3, 4, 5, 6, 7] : List Nat).filter
          (fun r => decide (r ≤ 256 / (loadPwdGenCfg [1, 1, 1, 8]).symCount
            * (loadPwdGenCfg [1, 1, 1, 8]).symCount - 1))).take
          (loadPwdGenCfg [1, 1, 1, 8]).passwordLen).map
        (fun r => (loadPwdGenCfg [1, 1, 1, 8]).symbols.getD
          (r % (loadPwdGenCfg [1, 1, 1, 8]).symCount) 0)).length
        = (loadPwdGenCfg [1, 1, 1, 8]).passwordLen
    ∧ ∀ c ∈ (((([0, 1, 2, 3, 4, 5, 6, 7] : List Nat).filter
          (fun r => decide (r ≤ 256 / (loadPwdGenCfg [1, 1, 1, 8]).symCount
            * (loadPwdGenCfg [1, 1, 1, 8]).symCount - 1))).take
          (loadPwdGenCfg [1, 1, 1, 8]).passwordLen).map
        (fun r => (loadPwdGenCfg [1, 1, 1, 8]).symbols.getD
          (r % (loadPwdGenCfg [1, 1, 1, 8]).symCount) 0)),
        isprint c = true :=
  generatePassword_correct [1, 1, 1, 8] [0, 1, 2, 3, 4, 5, 6, 7]
    (by decide) (by decide) (by decide)

/-- C10: the pool size that LoadPwdGenCfg divides 256 by is zero exactly
when the three flag bytes are all zero; in every other case the division
succeeds and maxSymIndex is computed; and the all-flags-off configuration
that the config verb can store is loaded with a zero divisor
(a division fault). -/
theorem loadPwdGenCfg_divisor (cfg : List Nat) (n : Nat) :
    ((loadPwdGenCfg cfg).symCount = 0
        ↔ (cfg.getD 0 0 = 0 ∧ cfg.getD 1 0 = 0 ∧ cfg.getD 2 0 = 0))
    ∧ ((loadPwdGenCfg cfg).maxSymIndex = none
        ↔ (loadPwdGenCfg cfg).symCount = 0)
    ∧ (loadPwdGenCfg (serializePwdGenCfg false false false n)).maxSymIndex
        = none := by
  refine ⟨?_, ?_, ?_⟩
  · by_cases h0 : cfg.getD 0 0 = 0 <;> by_cases h1 : cfg.getD 1 0 = 0 <;>
      by_cases h2 : cfg.getD 2 0 = 0 <;>
      simp [loadPwdGenCfg, h0, h1, h2, Nums, Letters, Specials]
  · by_cases hz : (loadPwdGenCfg cfg).symCount = 0
    · show (if (loadPwdGenCfg cfg).symCount = 0 then none else some _) = none ↔ _
      simp [hz]
    · show (if (loadPwdGenCfg cfg).symCount = 0 then none else some _) = none ↔ _
      simp [hz]
  · simp [loadPwdGenCfg, serializePwdGenCfg]

/-! Master-password check, from src/pwm.c lines 322-355. -/

/-- The password-prompt loop of CheckMasterPwd: for each candidate
password, derive the config key and try to decrypt the config ciphertext
(abstracted as dec); on success load the generator configuration and
return; on failure sleep the current backoff, double it, and re-prompt.
The result pairs the list of sleep durations performed with the loaded
configuration (none when the supplied candidates are exhausted; the C
loop would keep prompting). -/
def checkMasterPwd (dec : List Nat → Option (List Nat)) :
    List (List Nat) → Nat → List Nat × Option GenState
  | [], _ => ([], none)
  | p :: rest, backoff =>
    match dec p with
    | some cfgData => ([], some (loadPwdGenCfg cfgData))
    | none =>
      let r := checkMasterPwd dec rest (2 * backoff)
      (backoff :: r.1, r.2)

theorem checkMasterPwd_all_fail (dec : List Nat → Option (List Nat)) :
    ∀ (bad : List (List Nat)), (∀ p ∈ bad, dec p = none) → ∀ (b : Nat),
    checkMasterPwd dec bad b
      = ((List.range bad.length).map (fun i => b * 2 ^ i), none) := by
  intro bad
  induction bad with
  | nil => intro _ b; simp [checkMasterPwd]
  | cons p rest ih =>
    intro hfail b
    have hp : dec p = none := hfail p (List.mem_cons_self p rest)
    have hrest : ∀ q ∈ rest, dec q = none :=
      fun q hq => hfail q (List.mem_cons_of_mem p hq)
    have hstep : checkMasterPwd dec (p :: rest) b
        = (b :: (checkMasterPwd dec rest (2 * b)).1,
            (checkMasterPwd dec rest (2 * b)).2) := by
      simp [checkMasterPwd, hp]
    rw [hstep, ih hrest (2 * b)]
    have hmap : (List.range (rest.length + 1)).map (fun i => b * 2 ^ i)
        = b :: (List.range rest.length).map (fun i => 2 * b * 2 ^ i) := by
      rw [List.range_succ_eq_map, List.map_cons, List.map_map]
      simp only [pow_zero, mul_one]
      refine congrArg (List.cons b) ?_
      apply List.map_congr_left
      intro i _
      simp [Function.comp, pow_succ]
      ring
    simp [hmap]

theorem checkMasterPwd_first_success (dec : List Nat → Option (List Nat)) :
    ∀ (bad : List (List Nat)) (good : List Nat) (rest : List (List Nat))
      (cfgData : List Nat),
    (∀ p ∈ bad, dec p = none) → dec good = some cfgData → ∀ (b : Nat),
    checkMasterPwd dec (bad ++ good :: rest) b
      = ((List.range bad.length).map (fun i => b * 2 ^ i),
          some (loadPwdGenCfg cfgData)) := by
  intro bad
  induction bad with
  | nil =>
    intro good rest cfgData _ hgood b
    simp [checkMasterPwd, hgood]
  | cons p tl ih =>
    intro good rest cfgData hfail hgood b
    have hp : dec p = none := hfail p (List.mem_cons_self p tl)
    have htl : ∀ q ∈ tl, dec q = none :=
      fun q hq => hfail q (List.mem_cons_of_mem p hq)
    have hstep : checkMasterPwd dec ((p :: tl) ++ good :: rest) b
        = (b :: (checkMasterPwd dec (tl ++ good :: rest) (2 * b)).1,
            (checkMasterPwd dec (tl ++ good :: rest) (2 * b)).2) := by
      simp [checkMasterPwd, hp]
    rw [hstep, ih good rest cfgData htl hgood (2 * b)]
    have hmap : (List.range (tl.length + 1)).map (fun i => b * 2 ^ i)
        = b :: (List.range tl.length).map (fun i => 2 * b * 2 ^ i) := by
      rw [List.range_succ_eq_map, List.map_cons, List.map_map]
      simp only [pow_zero, mul_one]
      refine congrArg (List.cons b) ?_
      apply List.map_congr_left
      intro i _
      simp [Function.comp, pow_succ]
      ring
    simp [hmap]

/-- C6: an incorrect master password is never fatal.  After every failed
decryption the check sleeps the current backoff (initially 1 second),
doubles it, and re-prompts, so after n consecutive failures the sleeps
performed are 2^0, 2^1, ..., 2^(n-1) for an arbitrary n (no upper bound);
the check returns, carrying the deserialized configuration, exactly when a
decryption succeeds: with only failing candidates it never returns a
configuration. -/
theorem checkMasterPwd_backoff (dec : List Nat → Option (List Nat))
    (bad : List (List Nat)) (good : List Nat) (rest : List (List Nat))
    (cfgData : List Nat)
    (hfail : ∀ p ∈ bad, dec p = none) (hgood : dec good = some cfgData) :
    checkMasterPwd dec (bad ++ good :: rest) 1
      = ((List.range bad.length).map (fun i => 2 ^ i),
          some (loadPwdGenCfg cfgData))
    ∧ ∀ b, (checkMasterPwd dec bad b).2 = none := by
  constructor
  · rw [checkMasterPwd_first_success dec bad good rest cfgData hfail hgood 1]
    simp
  · intro b
    rw [checkMasterPwd_all_fail dec bad hfail b]

/-- Witness for checkMasterPwd_backoff: two failing candidates before the
correct one, with sleeps of 1 then 2 seconds. -/
theorem checkMasterPwd_backoff_witness :
    checkMasterPwd
        (fun p => if p = [1] then some [1, 1, 1, 25] else none)
        ([[2], [3]] ++ [1] :: []) 1
      = ((List.range ([[2], [3]] : List (List Nat)).length).map (fun i => 2 ^ i),
          some (loadPwdGenCfg [1, 1, 1, 25]))
    ∧ ∀ b, (checkMasterPwd
        (fun p => if p = [1] then some [1, 1, 1, 25] else none)
        [[2], [3]] b).2 = none :=
  checkMasterPwd_backoff (fun p => if p = [1] then some [1, 1, 1, 25] else none)
    [[2], [3]] [1] [] [1, 1, 1, 25] (by decide) (by decide)

/-! A small filesystem model for the file operations of src/file.c and the
verbs of src/pwm.c that persist state.  The storage directory is an
association list from file name to file record. -/

/-- A file: its permission mode bits and its byte contents. -/
structure FileRec where
  mode : Nat
  data : List Nat
deriving DecidableEq

/-- The storage directory: file names mapped to file records. -/
abbrev FS : Type := List (String × FileRec)

/-- Owner-read permission bit (S_IRUSR = 0400). -/
def S_IRUSR : Nat := 256

/-- Owner-write permission bit (S_IWUSR = 0200). -/
def S_IWUSR : Nat := 128

def fsLookup : FS → String → Option FileRec
  | [], _ => none
  | (q, r) :: rest, p => if q = p then some r else fsLookup rest p

def fsWrite : FS → String → FileRec → FS
  | [], p, r => [(p, r)]
  | (q, s) :: rest, p, r =>
    if q = p then (p, r) :: rest else (q, s) :: fsWrite rest p r

def fsErase : FS → String → FS
  | [], _ => []
  | (q, s) :: rest, p =>
    if q = p then fsErase rest p else (q, s) :: fsErase rest p

/-- rename(2) over the model: move the record at src to dst. -/
def fsRename (fs : FS) (src dst : String) : FS :=
  match fsLookup fs src with
  | none => fs
  | some r => fsWrite (fsErase fs src) dst r

theorem fsLookup_fsWrite_self (fs : FS) (p : String) (r : FileRec) :
    fsLookup (fsWrite fs p r) p = some r := by
  induction fs with
  | nil => simp [fsWrite, fsLookup]
  | cons e rest ih =>
    by_cases h : e.1 = p
    · simp [fsWrite, fsLookup, h]
    · simp [fsWrite, fsLookup, h, ih]

theorem fsLookup_fsWrite_ne (fs : FS) (p q : String) (r : FileRec)
    (h : ¬ p = q) :
    fsLookup (fsWrite fs p r) q = fsLookup fs q := by
  induction fs with
  | nil => simp [fsWrite, fsLookup, h]
  | cons e rest ih =>
    by_cases he : e.1 = p
    · simp [fsWrite, fsLookup, he, h]
    · simp [fsWrite, fsLookup, he, ih]

theorem fsLookup_fsErase_self (fs : FS) (p : String) :
    fsLookup (fsErase fs p) p = none := by
  induction fs with
  | nil => simp [fsErase, fsLookup]
  | cons e rest ih =>
    by_cases he : e.1 = p
    · simp [fsErase, he, ih]
    · simp [fsErase, fsLookup, he, ih]

/-- CreateFile (src/file.c lines 23-37): calls creat, which opens with
O_CREAT, O_WRONLY and O_TRUNC and mode S_IRUSR | S_IWUSR, and retries the
call while it fails with EINTR.  The model counts the interruptions; the
call succeeds regardless, leaving an empty file with mode 0600 at the
path (an existing file is truncated, since creat has no O_EXCL). -/
def createFile (interruptions : Nat) (fs : FS) (path : String) : FS × Bool :=
  match interruptions with
  | 0 => (fsWrite fs path ⟨S_IRUSR + S_IWUSR, []⟩, true)
  | k + 1 => createFile k fs path

/-- Amended C4: the file-creation primitive used by create, update, and
init opens with create-or-truncate semantics (creat: O_CREAT | O_WRONLY |
O_TRUNC) and mode 0600, retrying on interruption; creating a path that
already exists therefore succeeds and truncates the existing file to
empty rather than failing (there is no O_EXCL; callers guard with a
separate existence check instead). -/
theorem createFile_truncates (k : Nat) (fs : FS) (path : String) :
    (createFile k fs path).2 = true
    ∧ fsLookup (createFile k fs path).1 path = some ⟨S_IRUSR + S_IWUSR, []⟩
    ∧ createFile k fs path = createFile 0 fs path
    ∧ S_IRUSR + S_IWUSR = 0x180 := by
  induction k with
  | zero =>
    refine ⟨rfl, ?_, rfl, rfl⟩
    exact fsLookup_fsWrite_self fs path _
  | succ n ih =>
    exact ⟨ih.1, ih.2.1, ih.2.2.1, rfl⟩

/-- Counterexample to C4 as stated: creating a path that already exists
does not fail; it succeeds and truncates the existing contents. -/
theorem createFile_existing_succeeds :
    (createFile 0 [("x", ⟨384, [1, 2, 3]⟩)] "x").2 = true
    ∧ fsLookup (createFile 0 [("x", ⟨384, [1, 2, 3]⟩)] "x").1 "x"
        = some ⟨384, []⟩
    ∧ fsLookup [("x", ⟨384, [1, 2, 3]⟩)] "x" = some ⟨384, [1, 2, 3]⟩ := by
  refine ⟨rfl, ?_, ?_⟩ <;> decide

/-! The system file and the config verb, from src/pwm.c. -/

/-- The system file name (SYSTEM_FILE_NAME, src/pwm.c line 121). -/
def systemFileName : String := "system"

/-- The temp file name used for atomic rewrites (src/pwm.c line 1298). -/
def tempFileName : String := "temp"

/-- WriteSystemFile (src/pwm.c lines 732-747): the system file is the
concatenation fileSalt | nameSalt | cfgSalt | cfgTag | cfgCT. -/
def writeSystemFile (fileSalt nameSalt salt tag ct : List Nat) : List Nat :=
  fileSalt ++ nameSalt ++ salt ++ tag ++ ct

/-- Config (src/pwm.c lines 873-934): read fileSalt and nameSalt from the
system file (via CheckMasterPwd), draw a fresh cfgSalt, derive a fresh
config key from it with the "data" label, serialize the edited generator
configuration, encrypt it under the fresh key with the fixed nonce, write
fileSalt | nameSalt | cfgSalt | cfgTag | cfgCT to the temp file, and
rename the temp file over the system file.  When the system file is
missing the verb halts before mutating anything. -/
def configOp (kdf : Kdf) (enc : Enc) (fs : FS) (master freshSalt : List Nat)
    (useNums useLetters useSpecialChars : Bool) (len : Nat) : FS :=
  match fsLookup fs systemFileName with
  | none => fs
  | some sys =>
    let fileSalt := sys.data.take SALT_SIZE
    let nameSalt := (sys.data.drop SALT_SIZE).take SALT_SIZE
    let encKey := kdf master freshSalt DATA_ENC_KEYS KEY_SIZE
    let cfgData := serializePwdGenCfg useNums useLetters useSpecialChars len
    let ctTag := enc encKey FixedNonce cfgData
    let fs1 := (createFile 0 fs tempFileName).1
    let fs2 := fsWrite fs1 tempFileName
      ⟨S_IRUSR + S_IWUSR,
        writeSystemFile fileSalt nameSalt freshSalt ctTag.2 ctTag.1⟩
    fsRename fs2 tempFileName systemFileName

/-- C8: config commits a new system file via temp-then-rename whose
cfgSalt field is the fresh salt and whose trailing bytes are the tag and
ciphertext of the configuration re-encrypted under the key freshly
derived from that salt with the "data" label, while the fileSalt and
nameSalt fields are byte-for-byte the ones read from the old system file;
consequently an item filename derived after config equals the one derived
before, for every item name. -/
theorem configOp_preserves_salts (kdf : Kdf) (enc : Enc) (fs : FS)
    (master freshSalt : List Nat) (un ul us : Bool) (len : Nat)
    (sys : FileRec) (hsys : fsLookup fs systemFileName = some sys)
    (hlen : 64 ≤ sys.data.length) (hfresh : freshSalt.length = 32) :
    fsLookup (configOp kdf enc fs master freshSalt un ul us len) systemFileName
      = some ⟨S_IRUSR + S_IWUSR,
          writeSystemFile (sys.data.take 32) ((sys.data.drop 32).take 32)
            freshSalt
            (enc (kdf master freshSalt DATA_ENC_KEYS KEY_SIZE) FixedNonce
              (serializePwdGenCfg un ul us len)).2
            (enc (kdf master freshSalt DATA_ENC_KEYS KEY_SIZE) FixedNonce
              (serializePwdGenCfg un ul us len)).1⟩
    ∧ fsLookup (configOp kdf enc fs master freshSalt un ul us len) tempFileName
        = none
    ∧ (writeSystemFile (sys.data.take 32) ((sys.data.drop 32).take 32)
          freshSalt
          (enc (kdf master freshSalt DATA_ENC_KEYS KEY_SIZE) FixedNonce
            (serializePwdGenCfg un ul us len)).2
          (enc (kdf master freshSalt DATA_ENC_KEYS KEY_SIZE) FixedNonce
            (serializePwdGenCfg un ul us len)).1).take 32 = sys.data.take 32
    ∧ ((writeSystemFile (sys.data.take 32) ((sys.data.drop 32).take 32)
          freshSalt
          (enc (kdf master freshSalt DATA_ENC_KEYS KEY_SIZE) FixedNonce
            (serializePwdGenCfg un ul us len)).2
          (enc (kdf master freshSalt DATA_ENC_KEYS KEY_SIZE) FixedNonce
            (serializePwdGenCfg un ul us len)).1).drop 32).take 32
        = (sys.data.drop 32).take 32
    ∧ ((writeSystemFile (sys.data.take 32) ((sys.data.drop 32).take 32)
          freshSalt
          (enc (kdf master freshSalt DATA_ENC_KEYS KEY_SIZE) FixedNonce
            (serializePwdGenCfg un ul us len)).2
          (enc (kdf master freshSalt DATA_ENC_KEYS KEY_SIZE) FixedNonce
            (serializePwdGenCfg un ul us len)).1).drop 64).take 32 = freshSalt
    ∧ (writeSystemFile (sys.data.take 32) ((sys.data.drop 32).take 32)
          freshSalt
          (enc (kdf master freshSalt DATA_ENC_KEYS KEY_SIZE) FixedNonce
            (serializePwdGenCfg un ul us len)).2
          (enc (kdf master freshSalt DATA_ENC_KEYS KEY_SIZE) FixedNonce
            (serializePwdGenCfg un ul us len)).1).drop 96
        = (enc (kdf master freshSalt DATA_ENC_KEYS KEY_SIZE) FixedNonce
            (serializePwdGenCfg un ul us len)).2
          ++ (enc (kdf master freshSalt DATA_ENC_KEYS KEY_SIZE) FixedNonce
            (serializePwdGenCfg un ul us len)).1
    ∧ ∀ itemName : List Nat,
        deriveName kdf master
          ((writeSystemFile (sys.data.take 32) ((sys.data.drop 32).take 32)
            freshSalt
            (enc (kdf master freshSalt DATA_ENC_KEYS KEY_SIZE) FixedNonce
              (serializePwdGenCfg un ul us len)).2
            (enc (kdf master freshSalt DATA_ENC_KEYS KEY_SIZE) FixedNonce
              (serializePwdGenCfg un ul us len)).1).take 32)
          (itemName ++ FILE_LABEL) FILENAME_SIZE
        = deriveName kdf master (sys.data.take 32)
            (itemName ++ FILE_LABEL) FILENAME_SIZE := by
  have hne : ¬ tempFileName = systemFileName := by decide
  have hA : (sys.data.take 32).length = 32 := by
    rw [List.length_take]
    omega
  have hB : ((sys.data.drop 32).take 32).length = 32 := by
    rw [List.length_take, List.length_drop]
    omega
  have htake : (writeSystemFile (sys.data.take 32) ((sys.data.drop 32).take 32)
      freshSalt
      (enc (kdf master freshSalt DATA_ENC_KEYS KEY_SIZE) FixedNonce
        (serializePwdGenCfg un ul us len)).2
      (enc (kdf master freshSalt DATA_ENC_KEYS KEY_SIZE) FixedNonce
        (serializePwdGenCfg un ul us len)).1).take 32 = sys.data.take 32 := by
    have h1 : writeSystemFile (sys.data.take 32) ((sys.data.drop 32).take 32)
        freshSalt
        (enc (kdf master freshSalt DATA_ENC_KEYS KEY_SIZE) FixedNonce
          (serializePwdGenCfg un ul us len)).2
        (enc (kdf master freshSalt DATA_ENC_KEYS KEY_SIZE) FixedNonce
          (serializePwdGenCfg un ul us len)).1
        = sys.data.take 32 ++ ((sys.data.drop 32).take 32 ++ (freshSalt
          ++ ((enc (kdf master freshSalt DATA_ENC_KEYS KEY_SIZE) FixedNonce
            (serializePwdGenCfg un ul us len)).2
          ++ (enc (kdf master freshSalt DATA_ENC_KEYS KEY_SIZE) FixedNonce
            (serializePwdGenCfg un ul us len)).1))) := by
      simp [writeSystemFile, List.append_assoc]
    rw [h1]
    exact List.take_left' hA
  refine ⟨?_, ?_, htake, ?_, ?_, ?_, ?_⟩
  · show fsLookup (configOp kdf enc fs master freshSalt un ul us len)
      systemFileName = _
    unfold configOp
    rw [hsys]
    simp only [fsRename, createFile, fsLookup_fsWrite_self, SALT_SIZE]
  · show fsLookup (configOp kdf enc fs master freshSalt un ul us len)
      tempFileName = none
    have hne2 : ¬ systemFileName = tempFileName := by decide
    unfold configOp
    rw [hsys]
    simp only [fsRename, createFile, fsLookup_fsWrite_self]
    rw [fsLookup_fsWrite_ne _ _ _ _ hne2]
    exact fsLookup_fsErase_self _ _
  · have h2 : writeSystemFile (sys.data.take 32) ((sys.data.drop 32).take 32)
        freshSalt
        (enc (kdf master freshSalt DATA_ENC_KEYS KEY_SIZE) FixedNonce
          (serializePwdGenCfg un ul us len)).2
        (enc (kdf master freshSalt DATA_ENC_KEYS KEY_SIZE) FixedNonce
          (serializePwdGenCfg un ul us len)).1
        = sys.data.take 32 ++ ((sys.data.drop 32).take 32 ++ (freshSalt
          ++ ((enc (kdf master freshSalt DATA_ENC_KEYS KEY_SIZE) FixedNonce
            (serializePwdGenCfg un ul us len)).2
          ++ (enc (kdf master freshSalt DATA_ENC_KEYS KEY_SIZE) FixedNonce
            (serializePwdGenCfg un ul us len)).1))) := by
      simp [writeSystemFile, List.append_assoc]
    rw [h2, List.drop_left' hA]
    exact List.take_left' hB
  · have h3 : writeSystemFile (sys.data.take 32) ((sys.data.drop 32).take 32)
        freshSalt
        (enc (kdf master freshSalt DATA_ENC_KEYS KEY_SIZE) FixedNonce
          (serializePwdGenCfg un ul us len)).2
        (enc (kdf master freshSalt DATA_ENC_KEYS KEY_SIZE) FixedNonce
          (serializePwdGenCfg un ul us len)).1
        = (sys.data.take 32 ++ (sys.data.drop 32).take 32) ++ (freshSalt
          ++ ((enc (kdf master freshSalt DATA_ENC_KEYS KEY_SIZE) FixedNonce
            (serializePwdGenCfg un ul us len)).2
          ++ (enc (kdf master freshSalt DATA_ENC_KEYS KEY_SIZE) FixedNonce
            (serializePwdGenCfg un ul us len)).1)) := by
      simp [writeSystemFile, List.append_assoc]
    rw [h3, List.drop_left' (by simp [hA, hB])]
    exact List.take_left' hfresh
  · have h4 : writeSystemFile (sys.data.take 32) ((sys.data.drop 32).take 32)
        freshSalt
        (enc (kdf master freshSalt DATA_ENC_KEYS KEY_SIZE) FixedNonce
          (serializePwdGenCfg un ul us len)).2
        (enc (kdf master freshSalt DATA_ENC_KEYS KEY_SIZE) FixedNonce
          (serializePwdGenCfg un ul us len)).1
        = (sys.data.take 32 ++ (sys.data.drop 32).take 32 ++ freshSalt)
          ++ ((enc (kdf master freshSalt DATA_ENC_KEYS KEY_SIZE) FixedNonce
            (serializePwdGenCfg un ul us len)).2
          ++ (enc (kdf master freshSalt DATA_ENC_KEYS KEY_SIZE) FixedNonce
            (serializePwdGenCfg un ul us len)).1) := by
      simp [writeSystemFile, List.append_assoc]
    rw [h4]
    exact List.drop_left' (by simp [hA, hB, hfresh])
  · intro itemName
    rw [htake]

/-- Witness for configOp_preserves_salts at a concrete store. -/
theorem configOp_preserves_salts_witness :
    fsLookup (configOp zeroKdf (fun _ _ pt => (pt, List.replicate 16 1))
        [(systemFileName, ⟨384, List.replicate 116 5⟩)]
        [109] (List.replicate 32 9) true true true 10) systemFileName
      = some ⟨S_IRUSR + S_IWUSR,
          writeSystemFile ((List.replicate 116 5).take 32)
            (((List.replicate 116 5).drop 32).take 32)
            (List.replicate 32 9)
            ((fun _ _ pt => (pt, List.replicate 16 1))
              (zeroKdf [109] (List.replicate 32 9) DATA_ENC_KEYS KEY_SIZE)
              FixedNonce (serializePwdGenCfg true true true 10)).2
            ((fun _ _ pt => (pt, List.replicate 16 1))
              (zeroKdf [109] (List.replicate 32 9) DATA_ENC_KEYS KEY_SIZE)
              FixedNonce (serializePwdGenCfg true true true 10)).1⟩
    ∧ fsLookup (configOp zeroKdf (fun _ _ pt => (pt, List.replicate 16 1))
        [(systemFileName, ⟨384, List.replicate 116 5⟩)]
        [109] (List.replicate 32 9) true true true 10) tempFileName = none
    ∧ (writeSystemFile ((List.replicate 116 5).take 32)
          (((List.replicate 116 5).drop 32).take 32)
          (List.replicate 32 9)
          ((fun _ _ pt => (pt, List.replicate 16 1))
            (zeroKdf [109] (List.replicate 32 9) DATA_ENC_KEYS KEY_SIZE)
            FixedNonce (serializePwdGenCfg true true true 10)).2
          ((fun _ _ pt => (pt, List.replicate 16 1))
            (zeroKdf [109] (List.replicate 32 9) DATA_ENC_KEYS KEY_SIZE)
            FixedNonce (serializePwdGenCfg true true true 10)).1).take 32
        = (List.replicate 116 5).take 32
    ∧ ((writeSystemFile ((List.replicate 116 5).take 32)
          (((List.replicate 116 5).drop 32).take 32)
          (List.replicate 32 9)
          ((fun _ _ pt => (pt, List.replicate 16 1))
            (zeroKdf [109] (List.replicate 32 9) DATA_ENC_KEYS KEY_SIZE)
            FixedNonce (serializePwdGenCfg true true true 10)).2
          ((fun _ _ pt => (pt, List.replicate 16 1))
            (zeroKdf [109] (List.replicate 32 9) DATA_ENC_KEYS KEY_SIZE)
            FixedNonce (serializePwdGenCfg true true true 10)).1).drop 32).take 32
        = ((List.replicate 116 5).drop 32).take 32
    ∧ ((writeSystemFile ((List.replicate 116 5).take 32)
          (((List.replicate 116 5).drop 32).take 32)
          (List.replicate 32 9)
          ((fun _ _ pt => (pt, List.replicate 16 1))
            (zeroKdf [109] (List.replicate 32 9) DATA_ENC_KEYS KEY_SIZE)
            FixedNonce (serializePwdGenCfg true true true 10)).2
          ((fun _ _ pt => (pt, List.replicate 16 1))
            (zeroKdf [109] (List.replicate 32 9) DATA_ENC_KEYS KEY_SIZE)
            FixedNonce (serializePwdGenCfg true true true 10)).1).drop 64).take 32
        = List.replicate 32 9
    ∧ (writeSystemFile ((List.replicate 116 5).take 32)
          (((List.replicate 116 5).drop 32).take 32)
          (List.replicate 32 9)
          ((fun _ _ pt => (pt, List.replicate 16 1))
            (zeroKdf [109] (List.replicate 32 9) DATA_ENC_KEYS KEY_SIZE)
            FixedNonce (serializePwdGenCfg true true true 10)).2
          ((fun _ _ pt => (pt, List.replicate 16 1))
            (zeroKdf [109] (List.replicate 32 9) DATA_ENC_KEYS KEY_SIZE)
            FixedNonce (serializePwdGenCfg true true true 10)).1).drop 96
        = ((fun _ _ pt => (pt, List.replicate 16 1))
            (zeroKdf [109] (List.replicate 32 9) DATA_ENC_KEYS KEY_SIZE)
            FixedNonce (serializePwdGenCfg true true true 10)).2
          ++ ((fun _ _ pt => (pt, List.replicate 16 1))
            (zeroKdf [109] (List.replicate 32 9) DATA_ENC_KEYS KEY_SIZE)
            FixedNonce (serializePwdGenCfg true true true 10)).1
    ∧ ∀ itemName : List Nat,
        deriveName zeroKdf [109]
          ((writeSystemFile ((List.replicate 116 5).take 32)
            (((List.replicate 116 5).drop 32).take 32)
            (List.replicate 32 9)
            ((fun _ _ pt => (pt, List.replicate 16 1))
              (zeroKdf [109] (List.replicate 32 9) DATA_ENC_KEYS KEY_SIZE)
              FixedNonce (serializePwdGenCfg true true true 10)).2
            ((fun _ _ pt => (pt, List.replicate 16 1))
              (zeroKdf [109] (List.replicate 32 9) DATA_ENC_KEYS KEY_SIZE)
              FixedNonce (serializePwdGenCfg true true true 10)).1).take 32)
          (itemName ++ FILE_LABEL) FILENAME_SIZE
        = deriveName zeroKdf [109] ((List.replicate 116 5).take 32)
            (itemName ++ FILE_LABEL) FILENAME_SIZE :=
  configOp_preserves_salts zeroKdf (fun _ _ pt => (pt, List.replicate 16 1))
    [(systemFileName, ⟨384, List.replicate 116 5⟩)]
    [109] (List.replicate 32 9) true true true 10
    ⟨384, List.replicate 116 5⟩ (by simp [fsLookup])
    (by simp) (by simp)

/-! The list verb. -/

/-- The List operation as implemented (src/pwm.c lines 860-865): the
function body is empty.  It opens no entry, derives no key, decrypts
nothing, and prints no item name, for every possible store. -/
def listOp (_ : FS) : List (List Nat) := []

/-- Type of the abstracted AEAD decryption Decrypt (src/crypto.c):
key, nonce, ciphertext, tag to plaintext, or none on tag failure. -/
def Dec : Type := List Nat → List Nat → List Nat → List Nat → Option (List Nat)

/-- Lexicographic comparison of byte strings, for sorting item names. -/
def lexLe : List Nat → List Nat → Bool
  | [], _ => true
  | _ :: _, [] => false
  | a :: as, b :: bs =>
    if a < b then true else if b < a then false else lexLe as bs

def insertName (x : List Nat) : List (List Nat) → List (List Nat)
  | [] => [x]
  | y :: ys => if lexLe x y then x :: y :: ys else y :: insertName x ys

/-- Insertion sort of item names in lexicographic order. -/
def sortNames (l : List (List Nat)) : List (List Nat) :=
  l.foldr insertName []

/-- Modelled from the spec: the List operation described in spec section
4.9 (absent from the List function in src/pwm.c, whose body is empty):
for every entry of the storage directory other than the system file, read
the name block nameNonce | nameTag | nameCT, derive the name key from the
master secret and nameSalt with the "names" label, decrypt nameCT with
the stored nameNonce, recover the NUL-terminated item name, then sort the
recovered names lexicographically for printing. -/
def listOpSpec (kdf : Kdf) (dec : Dec) (master nameSalt : List Nat)
    (fs : FS) : List (List Nat) :=
  sortNames (fs.filterMap (fun e =>
    if e.1 = systemFileName then none
    else
      (dec (kdf master nameSalt NAME_ENC_KEYS KEY_SIZE)
        (e.2.data.take NONCE_SIZE)
        ((e.2.data.drop (NONCE_SIZE + TAG_SIZE)).take MAX_ITEM_NAME_SIZE)
        ((e.2.data.drop NONCE_SIZE).take TAG_SIZE)).map
        (fun pt => pt.takeWhile (fun b => b != 0))))

/-- C1 is violated by the code: listOp (the implemented List verb) prints
no names on any store, while the specified behavior recovers, sorts, and
prints the stored item names — shown here on a store holding the system
file and one item whose encrypted name block decrypts to the name [104,
105] under a concrete key derivation and decryption. -/
theorem listOp_is_empty :
    (∀ fs : FS, listOp fs = [])
    ∧ listOpSpec zeroKdf (fun _ _ ct _ => some ct) [109] (List.replicate 32 2)
        [(systemFileName, ⟨384, List.replicate 116 0⟩),
         ("aa", ⟨384, writeItemFile (List.replicate 12 0) (List.replicate 16 0)
             ([104, 105] ++ List.replicate 98 0) (List.replicate 32 0)
             (List.replicate 16 0) (List.replicate 565 0)⟩)]
        = [[104, 105]]
    ∧ listOp
        [(systemFileName, ⟨384, List.replicate 116 0⟩),
         ("aa", ⟨384, writeItemFile (List.replicate 12 0) (List.replicate 16 0)
             ([104, 105] ++ List.replicate 98 0) (List.replicate 32 0)
             (List.replicate 16 0) (List.replicate 565 0)⟩)]
        = [] := by
  refine ⟨fun _ => rfl, ?_, rfl⟩
  decide

end Pwm
